import Mathlib

/-!
Shallow embedding of the NiftyMIC reconstruction core.

Sources embedded:
  - src/src/reconstruction/solver/TikhonovSolver.py  (the Tikhonov solver)
  - src/src/Registration.py                          (isotropic resampling)
  - src/src/py/registration/RegistrationSimpleITK.py (registration accessors)

Vectors are lists of real numbers.  numpy slice assignment and elementwise
addition are modelled by Option-valued operations that return none exactly
where numpy raises a shape error.  Methods of the Solver base class, the
Stack and Slice containers and the scipy lsqr routine are not part of the
repository snapshot under src/; each such collaborator is modelled from the
specification and carries a doc comment saying so.
-/

namespace NiftyMIC

/-- Normalisation of a possibly negative numpy slice bound against an array
of length len: a negative bound counts from the end and the result is
clamped to the interval from 0 to len. -/
def npIndex (len : Nat) (i : Int) : Nat :=
  min ((if i < 0 then i + len else i).toNat) len

/-- numpy slice assignment of the form arr[start:stop] = v.  Returns none,
the model of the numpy shape error, when v does not have the length of the
selected region. -/
def npSetSlice (arr : List ℝ) (start stop : Int) (v : List ℝ) : Option (List ℝ) :=
  let s := npIndex arr.length start
  let e := npIndex arr.length stop
  if v.length = e - s then some (arr.take s ++ v ++ arr.drop (max s e)) else none

/-- numpy slice assignment of the form arr[start:] = v. -/
def npSetSliceFrom (arr : List ℝ) (start : Int) (v : List ℝ) : Option (List ℝ) :=
  npSetSlice arr start (arr.length : Int) v

/-- numpy slice read of the form arr[start:]. -/
def npSliceFrom (arr : List ℝ) (start : Int) : List ℝ :=
  arr.drop (npIndex arr.length start)

/-- numpy elementwise addition a + b, including the length-one broadcast
case; none models the numpy broadcast error on mismatched lengths. -/
noncomputable def npAdd (a b : List ℝ) : Option (List ℝ) :=
  if a.length = b.length then some (List.zipWith (fun x y => x + y) a b)
  else if a.length = 1 then some (b.map (fun t => a.headD 0 + t))
  else if b.length = 1 then some (a.map (fun t => t + b.headD 0))
  else none

/-- One 2-D slice: its sitk size triple, its flattened voxel data and its
flattened 0/1 mask.  The Slice container class is not under src/; this
record keeps exactly what the solver reads from it. -/
structure Slice where
  size : Nat × Nat × Nat
  data : List ℝ
  mask : List ℝ

/-- Voxel count of a slice: the product of its sitk size triple. -/
def Slice.voxels (sl : Slice) : Nat := sl.size.1 * sl.size.2.1 * sl.size.2.2

/-- One stack: its sitk size triple and its ordered slices.  The Stack
container class is not under src/; this record keeps exactly what the
solver reads from it. -/
structure Stack where
  size : Nat × Nat × Nat
  slices : List Slice

/-- Voxel count of a stack: the product of its sitk size triple. -/
def Stack.voxels (stk : Stack) : Nat := stk.size.1 * stk.size.2.1 * stk.size.2.2

/-- Voxel count of the first slice of a stack, as read by _get_b via
slices[0]; zero for the empty list (where the source raises IndexError). -/
def Stack.headSliceVoxels (stk : Stack) : Nat :=
  match stk.slices with
  | [] => 0
  | s0 :: _ => s0.voxels

/-- Modelled from the spec: well-formedness of the Stack container (the
Stack and Slice classes are not under src/).  A stack of size (nx, ny, nz)
holds nz slices, each a single-slice 3-D image of size (nx, ny, 1) whose
data and mask buffers match its voxel count. -/
def Stack.WF (stk : Stack) : Prop :=
  stk.slices.length = stk.size.2.2 ∧
  ∀ sl ∈ stk.slices,
    sl.size = (stk.size.1, stk.size.2.1, 1) ∧
    sl.data.length = sl.voxels ∧ sl.mask.length = sl.voxels

/-- Modelled from the spec: the masking operator Mk of the Solver base
class (not under src/): elementwise multiplication of the slice data by
its 0/1 mask. -/
noncomputable def Mk (sl : Slice) : List ℝ :=
  List.zipWith (fun m v => m * v) sl.mask sl.data

/-- Modelled from the spec: MA of the Solver base class (not under src/):
x is mapped to the stacked masked per-slice forward projections
[M_1 A_1 x; …; M_K A_K x]; the per-slice forward operators A_k are
abstract parameters. -/
noncomputable def MA (Aks : List (List ℝ → List ℝ)) (masks : List (List ℝ))
    (x : List ℝ) : List ℝ :=
  (List.zipWith (fun A m => List.zipWith (fun mv v => mv * v) m (A x)) Aks masks).flatten

/-- Partition of a stacked vector into consecutive blocks of the given
sizes. -/
def blocksOf : List Nat → List ℝ → List (List ℝ)
  | [], _ => []
  | n :: ns, y => y.take n :: blocksOf ns (y.drop n)

/-- Sum of a list of vectors of length n, accumulated onto the zero
vector. -/
noncomputable def vsum (n : Nat) (vs : List (List ℝ)) : List ℝ :=
  vs.foldl (fun acc v => List.zipWith (fun a b => a + b) acc v) (List.replicate n 0)

/-- Modelled from the spec: A_adj_M of the Solver base class (not under
src/): y is mapped to the sum over all slices of A_k* M_k applied to the
leading per-slice blocks of the stacked vector; the per-slice adjoint
operators are abstract parameters. -/
noncomputable def A_adj_M (Aadjs : List (List ℝ → List ℝ)) (masks : List (List ℝ))
    (sizes : List Nat) (n_hr : Nat) (y : List ℝ) : List ℝ :=
  vsum n_hr ((List.zip Aadjs (List.zip masks (blocksOf sizes y))).map
    (fun p => p.1 (List.zipWith (fun m v => m * v) p.2.1 p.2.2)))

/-- Modelled from the spec: D_adj of the Solver base class (not under
src/): the adjoint gradient applied to the trailing block of three
HR-volume-sized gradient components of the stacked vector; the adjoint
gradient itself is the abstract parameter Dstar. -/
def D_adj (Dstar : List ℝ → List ℝ) (n_hr : Nat) (y : List ℝ) : List ℝ :=
  Dstar (npSliceFrom y (-((3 * n_hr : Nat) : Int)))

/-- The HR volume: voxel grid size, isotropic spacing and flattened voxel
data. -/
structure HRVolume where
  size : Nat × Nat × Nat
  spacing : ℝ
  data : List ℝ

/-- Modelled from the spec: get_itk_image_from_array_vec of the Solver
base class (not under src/): reshape a solution vector onto the voxel grid
geometry of the template image. -/
def get_itk_image_from_array_vec (vec : List ℝ) (template : HRVolume) : HRVolume :=
  { template with data := vec }

/-- The TikhonovSolver state: the attributes stored by __init__. -/
structure TikhonovSolver where
  _stacks : List Stack
  _HR_volume : HRVolume
  _alpha : ℝ
  _iter_max : Int
  _reg_type : String
  _N_total_slice_voxels : Nat
  _N_voxels_HR_volume : Nat

/-- TikhonovSolver.__init__ (TikhonovSolver.py lines 81-111): stores the
parameters unvalidated and precomputes the total slice voxel count, a sum
over stacks of the product of each sitk size triple, and the HR voxel
count. -/
def TikhonovSolver.mkSolver (stacks0 : List Stack) (HR_volume : HRVolume)
    (alpha : ℝ) (iter_max : Int) (reg_type : String) : TikhonovSolver :=
  { _stacks := stacks0
    _HR_volume := HR_volume
    _alpha := alpha
    _iter_max := iter_max
    _reg_type := reg_type
    _N_total_slice_voxels := (stacks0.map Stack.voxels).sum
    _N_voxels_HR_volume := HR_volume.size.1 * HR_volume.size.2.1 * HR_volume.size.2.2 }

/-- Error message of set_regularization_type. -/
def regTypeErrorMsg : String :=
  "Error: regularization type can only be either TK0 or TK1"

/-- TikhonovSolver.set_regularization_type (lines 115-119): rejects any
type outside TK0 and TK1 with a ValueError, otherwise stores it. -/
def TikhonovSolver.set_regularization_type (s : TikhonovSolver) (reg_type : String) :
    Except String TikhonovSolver :=
  if reg_type ∈ ["TK0", "TK1"] then Except.ok { s with _reg_type := reg_type }
  else Except.error regTypeErrorMsg

/-- TikhonovSolver.get_regularization_type (lines 124-125). -/
def TikhonovSolver.get_regularization_type (s : TikhonovSolver) : String := s._reg_type

/-- TikhonovSolver.get_alpha (lines 136-137). -/
def TikhonovSolver.get_alpha (s : TikhonovSolver) : ℝ := s._alpha

/-- TikhonovSolver.get_iter_max (lines 148-149). -/
def TikhonovSolver.get_iter_max (s : TikhonovSolver) : Int := s._iter_max

/-- Inner loop of _get_b (lines 216-232): writes each masked slice of one
stack into b at the running offset i_min; the region length is the voxel
count of the first slice of the stack. -/
noncomputable def fillSlices (Nsv : Nat) (slices : List Slice) (b : List ℝ) (i_min : Nat) :
    Option (List ℝ × Nat) :=
  match slices with
  | [] => some (b, i_min)
  | sl :: rest =>
    (npSetSlice b (i_min : Int) ((i_min + Nsv : Nat) : Int) (Mk sl)).bind
      (fun b2 => fillSlices Nsv rest b2 (i_min + Nsv))

/-- Outer loop of _get_b (lines 209-232): iterates over the stacks; the
per-stack region length is read from slices[0], which raises (none) on a
stack without slices. -/
noncomputable def fillStacks (stacks0 : List Stack) (b : List ℝ) (i_min : Nat) :
    Option (List ℝ × Nat) :=
  match stacks0 with
  | [] => some (b, i_min)
  | stk :: rest =>
    if stk.slices.isEmpty then none
    else
      (fillSlices stk.headSliceVoxels stk.slices b i_min).bind
        (fun r => fillStacks rest r.1 r.2)

/-- TikhonovSolver._get_b (lines 201-234): allocate a zero vector of
length N_voxels and fill its leading entries with the masked slice data,
stack by stack and slice by slice. -/
noncomputable def get_b (stacks0 : List Stack) (N_voxels : Nat) : Option (List ℝ) :=
  (fillStacks stacks0 (List.replicate N_voxels 0) 0).map Prod.fst

/-- TikhonovSolver._A_TK0 (lines 250-261): allocate a zero vector of
length N_voxels, write MA x into the entries before the last
N_voxels_HR_volume ones, and write sqrt(alpha) times x into the trailing
entries. -/
noncomputable def A_TK0 (MAf : List ℝ → List ℝ) (N_voxels_HR_volume : Nat)
    (HR_nda_vec : List ℝ) (N_voxels : Nat) (alpha : ℝ) : Option (List ℝ) :=
  let A_x := List.replicate N_voxels (0 : ℝ)
  (npSetSlice A_x 0 (-(N_voxels_HR_volume : Int)) (MAf HR_nda_vec)).bind
    (fun A_x2 => npSetSliceFrom A_x2 (-(N_voxels_HR_volume : Int))
      (HR_nda_vec.map (fun t => Real.sqrt alpha * t)))

/-- TikhonovSolver._A_TK1 (lines 297-308): allocate a zero vector of
length N_voxels, write MA x into the entries before the last
3 * N_voxels_HR_volume ones, and write sqrt(alpha) times D x into the
trailing entries. -/
noncomputable def A_TK1 (MAf Df : List ℝ → List ℝ) (N_voxels_HR_volume : Nat)
    (HR_nda_vec : List ℝ) (N_voxels : Nat) (alpha : ℝ) : Option (List ℝ) :=
  let A_x := List.replicate N_voxels (0 : ℝ)
  (npSetSlice A_x 0 (-((3 * N_voxels_HR_volume : Nat) : Int)) (MAf HR_nda_vec)).bind
    (fun A_x2 => npSetSliceFrom A_x2 (-((3 * N_voxels_HR_volume : Nat) : Int))
      ((Df HR_nda_vec).map (fun t => Real.sqrt alpha * t)))

/-- TikhonovSolver._A_adj_TK0 (lines 273-281): A_adj_M applied to the
stacked vector, plus the last N_voxels_HR_volume entries of the stacked
vector scaled by sqrt(alpha). -/
noncomputable def A_adj_TK0 (Aadjf : List ℝ → List ℝ) (N_voxels_HR_volume : Nat)
    (stacked_slices_nda_vec : List ℝ) (alpha : ℝ) : Option (List ℝ) :=
  npAdd (Aadjf stacked_slices_nda_vec)
    ((npSliceFrom stacked_slices_nda_vec (-(N_voxels_HR_volume : Int))).map
      (fun t => t * Real.sqrt alpha))

/-- TikhonovSolver._A_adj_TK1 (lines 321-329): A_adj_M applied to the
stacked vector, plus D_adj of the stacked vector scaled by sqrt(alpha). -/
noncomputable def A_adj_TK1 (Aadjf Dadjf : List ℝ → List ℝ)
    (stacked_slices_nda_vec : List ℝ) (alpha : ℝ) : Option (List ℝ) :=
  npAdd (Aadjf stacked_slices_nda_vec)
    ((Dadjf stacked_slices_nda_vec).map (fun t => t * Real.sqrt alpha))

/-- Row count of the augmented system as computed at the start of
run_reconstruction (lines 155-171): the TK0 branch adds the HR voxel
count, every other stored type takes the else branch and adds three times
the HR voxel count. -/
def TikhonovSolver.N_voxels_augmented (s : TikhonovSolver) : Nat :=
  if s._reg_type ∈ ["TK0"] then s._N_total_slice_voxels + s._N_voxels_HR_volume
  else s._N_total_slice_voxels + 3 * s._N_voxels_HR_volume

/-- The matvec closure A_fw assembled in run_reconstruction (line 177) on
top of the operator dictionary built in __init__ (lines 103-106); an
unknown key is a KeyError raised only when the closure is evaluated,
modelled by none. -/
noncomputable def A_forward (MAf Df : List ℝ → List ℝ) (reg_type : String)
    (N_HR N_voxels : Nat) (alpha : ℝ) : List ℝ → Option (List ℝ) :=
  fun x =>
    if reg_type = "TK0" then A_TK0 MAf N_HR x N_voxels alpha
    else if reg_type = "TK1" then A_TK1 MAf Df N_HR x N_voxels alpha
    else none

/-- The rmatvec closure A_bw assembled in run_reconstruction (line 178) on
top of the adjoint operator dictionary (lines 108-111). -/
noncomputable def A_backward (Aadjf Dadjf : List ℝ → List ℝ) (reg_type : String)
    (N_HR : Nat) (alpha : ℝ) : List ℝ → Option (List ℝ) :=
  fun y =>
    if reg_type = "TK0" then A_adj_TK0 Aadjf N_HR y alpha
    else if reg_type = "TK1" then A_adj_TK1 Aadjf Dadjf y alpha
    else none

/-- Type of the iterative least-squares routine as run_reconstruction uses
it: matvec, rmatvec, right-hand side and iteration limit in, a triple of
solution vector, iteration count and residual norm out. -/
abbrev LsqrFun : Type :=
  (List ℝ → Option (List ℝ)) → (List ℝ → Option (List ℝ)) → List ℝ → Int →
    (List ℝ × Nat × ℝ)

/-- TikhonovSolver.run_reconstruction (lines 152-194): compute the row
count of the augmented system from the stored regularization type, build
b, assemble the matvec and rmatvec closures, call the least-squares
routine, and overwrite the HR volume with the reshaped solution vector.
No validation of the configuration happens here. -/
noncomputable def TikhonovSolver.run_reconstruction (s : TikhonovSolver)
    (lsqr : LsqrFun) (MAf Aadjf Df Dadjf : List ℝ → List ℝ) : Option TikhonovSolver :=
  let N_voxels := s.N_voxels_augmented
  (get_b s._stacks N_voxels).map (fun b =>
    let res := lsqr (A_forward MAf Df s._reg_type s._N_voxels_HR_volume N_voxels s._alpha)
                    (A_backward Aadjf Dadjf s._reg_type s._N_voxels_HR_volume s._alpha)
                    b s._iter_max
    { s with _HR_volume := get_itk_image_from_array_vec res.1 s._HR_volume })

/-- Modelled from the spec: the LSQR-class iterative solve (scipy lsqr is
an external library).  One bounded iteration: stop early on convergence,
otherwise apply one Krylov step, never exceeding the fuel; returns the
final iterate together with the number of steps performed. -/
def lsqr_iterate (step : List ℝ → List ℝ) (conv : List ℝ → Bool) :
    Nat → List ℝ → List ℝ × Nat
  | 0, x => (x, 0)
  | n + 1, x =>
    if conv x then (x, 0)
    else
      let r := lsqr_iterate step conv n (step x)
      (r.1, r.2 + 1)

/-- Modelled from the spec: the lsqr entry point with the calling
convention of run_reconstruction; iterates from x0 for at most iter_lim
steps and reports the final iterate, the step count and the residual
norm. -/
def lsqr_model (step : List ℝ → List ℝ) (conv : List ℝ → Bool)
    (rnorm : List ℝ → ℝ) (x0 : List ℝ) : LsqrFun :=
  fun _ _ _ iter_lim =>
    let r := lsqr_iterate step conv iter_lim.toNat x0
    (r.1, r.2, rnorm r.1)

/-- Registration.resample_to_isotropic_grid (Registration.py line 158):
the physical length of the sampling in the through-plane direction,
shape[2] * pixdim[2].  Voxel sizes are modelled as exact rationals. -/
def Registration.length_through_plane (shape2 : Nat) (pixdim2 : ℚ) : ℚ :=
  shape2 * pixdim2

/-- The mathematical target slice count of resample_to_isotropic_grid
before any cast: the ceiling of length_through_plane / pixdim[0]
(Registration.py lines 159-160, the np.ceil value). -/
def Registration.true_slice_count (shape2 : Nat) (pixdim0 pixdim2 : ℚ) : Nat :=
  (⌈Registration.length_through_plane shape2 pixdim2 / pixdim0⌉).toNat

/-- Registration.resample_to_isotropic_grid (lines 159-160): the computed
number of target slices; astype(np.uint8) reduces the integral ceiling
value modulo 2^8. -/
def Registration.number_of_slices_target_through_plane (shape2 : Nat)
    (pixdim0 pixdim2 : ℚ) : Nat :=
  Registration.true_slice_count shape2 pixdim0 pixdim2 % 256

/-- Registration.resample_to_isotropic_grid (lines 162-165): the shape of
the allocated target volume data_target. -/
def Registration.data_target_shape (shape : Nat × Nat × Nat)
    (pixdim0 pixdim2 : ℚ) : Nat × Nat × Nat :=
  (shape.1, shape.2.1,
    Registration.number_of_slices_target_through_plane shape.2.2 pixdim0 pixdim2)

/-- The RegistrationSimpleITK state: the attribute written by
set_registration_type and by __init__. -/
structure RegistrationSimpleITK where
  _registration_type : String

/-- The names bound at module level in RegistrationSimpleITK.py, with a
description of the bound value: the imports of lines 8-22 and the class
itself. -/
def RegistrationSimpleITK.moduleEnv : List (String × String) :=
  [("os", "module os"), ("sys", "module sys"), ("itk", "module itk"),
   ("sitk", "module SimpleITK"), ("np", "module numpy"),
   ("literal_eval", "function ast.literal_eval"),
   ("sitkh", "module pythonhelper.SimpleITKHelper"),
   ("ph", "module pythonhelper.PythonHelper"),
   ("st", "module base.Stack"), ("psf", "module base.PSF"),
   ("RegistrationSimpleITK", "class RegistrationSimpleITK")]

/-- The local names in scope in the body of get_registration_type: only
the parameter self. -/
def RegistrationSimpleITK.localsEnv : List (String × String) :=
  [("self", "the RegistrationSimpleITK instance")]

/-- A representative set of Python builtin names. -/
def pyBuiltinsEnv : List (String × String) :=
  [("print", "builtin print"), ("len", "builtin len"), ("range", "builtin range"),
   ("str", "builtin str"), ("isinstance", "builtin isinstance")]

/-- Python name resolution over an environment listed innermost first. -/
def pyLookup (env : List (String × String)) (n : String) : Option String :=
  (env.find? (fun p => p.1 = n)).map Prod.snd

/-- The bare name appearing in the body of get_registration_type. -/
def nameRegistrationType : String := "registration_type"

/-- The NameError text raised by get_registration_type. -/
def nameErrorMsg : String := "NameError: name registration_type is not defined"

/-- Error message of RegistrationSimpleITK.set_registration_type. -/
def regTypeSITKErrorMsg : String :=
  "Error: Registration type can only be Rigid, Similarity or Affine"

/-- RegistrationSimpleITK.set_registration_type (RegistrationSimpleITK.py
lines 112-117): rejects a type outside Rigid, Similarity and Affine with a
ValueError, otherwise stores it in self._registration_type. -/
def RegistrationSimpleITK.set_registration_type (s : RegistrationSimpleITK)
    (registration_type : String) : Except String RegistrationSimpleITK :=
  if registration_type ∈ ["Rigid", "Similarity", "Affine"] then
    Except.ok { s with _registration_type := registration_type }
  else Except.error regTypeSITKErrorMsg

/-- RegistrationSimpleITK.get_registration_type (lines 120-121): the body
is return registration_type, a bare name resolved against the locals, the
module globals and the builtins; the attribute self._registration_type is
never read.  An unresolved name is a NameError. -/
def RegistrationSimpleITK.get_registration_type (_s : RegistrationSimpleITK) :
    Except String String :=
  match pyLookup (RegistrationSimpleITK.localsEnv ++ RegistrationSimpleITK.moduleEnv
      ++ pyBuiltinsEnv) nameRegistrationType with
  | some v => Except.ok v
  | none => Except.error nameErrorMsg

/-! Concrete fixtures used by the closed witness and counterexample
theorems below. -/

/-- The constantly-none operator: the value taken by the assembled matvec
and rmatvec closures under an unknown regularization type. -/
def noneOp : List ℝ → Option (List ℝ) := fun _ => none

/-- A one-voxel HR volume. -/
def hr0 : HRVolume := { size := (1, 1, 1), spacing := 1, data := [0] }

/-- A solver state with an unknown regularization type, a negative alpha,
a nonpositive iteration limit and zero stacks. -/
noncomputable def s0 : TikhonovSolver :=
  TikhonovSolver.mkSolver [] hr0 (-1) 0 ("XX")

/-- A least-squares routine returning the solution vector 42. -/
noncomputable def lsqr0 : LsqrFun := fun _ _ _ _ => ([42], 0, 0)

/-- A solver state with regularization TK0 and iteration limit 10. -/
noncomputable def sC7 : TikhonovSolver :=
  TikhonovSolver.mkSolver [] hr0 1 10 ("TK0")

/-- A least-squares routine reporting 7 iterations actually performed. -/
noncomputable def lsqrC7 : LsqrFun := fun _ _ _ _ => ([3], 7, 0)

/-- A solver state with regularization TK0 and iteration limit 2. -/
noncomputable def sC6 : TikhonovSolver :=
  TikhonovSolver.mkSolver [] hr0 1 2 ("TK0")

/-- One abstract per-slice forward operator producing a two-voxel slice. -/
noncomputable def Aks1 : List (List ℝ → List ℝ) := [fun _ => [1, 2]]

/-- The matching slice mask. -/
noncomputable def masks1 : List (List ℝ) := [[1, 1]]

/-- An abstract differential operator producing three gradient entries. -/
noncomputable def D1 : List ℝ → List ℝ := fun _ => [1, 2, 3]

/-- A one-voxel HR vector. -/
noncomputable def x1 : List ℝ := [5]

/-- One abstract per-slice adjoint operator producing one HR voxel. -/
noncomputable def Aadjs1 : List (List ℝ → List ℝ) := [fun _ => [2]]

/-- The matching one-voxel slice mask. -/
noncomputable def masksA1 : List (List ℝ) := [[1]]

/-- The per-slice block sizes of the stacked vector. -/
def sizes1 : List Nat := [1]

/-- An abstract adjoint gradient producing one HR voxel. -/
noncomputable def Dstar1 : List ℝ → List ℝ := fun _ => [9]

/-- A stacked vector for the TK0 adjoint: one slice voxel, one HR voxel. -/
noncomputable def y0w : List ℝ := [4, 5]

/-- A stacked vector for the TK1 adjoint: one slice voxel, three gradient
entries. -/
noncomputable def y1w : List ℝ := [4, 5, 6, 7]

/-- A single one-voxel slice with data 2 and mask 1. -/
noncomputable def slice1 : Slice := { size := (1, 1, 1), data := [2], mask := [1] }

/-- A well-formed stack holding slice1. -/
noncomputable def stack1 : Stack := { size := (1, 1, 1), slices := [slice1] }

/-- The state sC7 after a run whose solve returned the vector 3. -/
noncomputable def sC7p : TikhonovSolver :=
  { sC7 with _HR_volume := { sC7._HR_volume with data := [3] } }

/-- A never-converging convergence test. -/
def convFalse : List ℝ → Bool := fun _ => false

/-- A residual norm reporting zero. -/
def rnorm0 : List ℝ → ℝ := fun _ => 0

/-- A one-entry start vector for the modelled lsqr iteration. -/
noncomputable def x7 : List ℝ := [7]

/-- The identity on vectors, used where an abstract operator is needed. -/
def idOp : List ℝ → List ℝ := fun v => v

/-!  Helper lemmas about the numpy slice model. -/

theorem npIndex_coe (len n : Nat) : npIndex len (n : Int) = min n len := by
  unfold npIndex; split <;> omega

theorem npIndex_neg (len n : Nat) (h0 : 0 < n) (h : n ≤ len) :
    npIndex len (-(n : Int)) = len - n := by
  unfold npIndex; split <;> omega

theorem npIndex_zero (len : Nat) : npIndex len 0 = 0 := by
  unfold npIndex; split <;> omega

theorem npSetSlice_append (pre mid post v : List ℝ) (h : v.length = mid.length) :
    npSetSlice (pre ++ mid ++ post) (pre.length : Int)
      ((pre.length + mid.length : Nat) : Int) v = some (pre ++ v ++ post) := by
  have hs : npIndex (pre ++ mid ++ post).length (pre.length : Int) = pre.length := by
    rw [npIndex_coe]; simp only [List.length_append]; omega
  have he : npIndex (pre ++ mid ++ post).length ((pre.length + mid.length : Nat) : Int)
      = pre.length + mid.length := by
    rw [npIndex_coe]; simp only [List.length_append]; omega
  have htake : List.take pre.length (pre ++ mid ++ post) = pre := by
    rw [List.append_assoc]; exact List.take_left pre (mid ++ post)
  have hdrop : List.drop (pre.length + mid.length) (pre ++ mid ++ post) = post := by
    have h1 : pre.length + mid.length = (pre ++ mid).length :=
      (List.length_append _ _).symm
    rw [h1]; exact List.drop_left (pre ++ mid) post
  have hmax : max pre.length (pre.length + mid.length) = pre.length + mid.length := by
    omega
  simp only [npSetSlice, hs, he]
  rw [if_pos (by omega)]
  rw [hmax, htake, hdrop]

theorem npSetSlice_zero_negstop (mid post v : List ℝ) (hpost : 0 < post.length)
    (h : v.length = mid.length) :
    npSetSlice (mid ++ post) 0 (-(post.length : Int)) v = some (v ++ post) := by
  have hs : npIndex (mid ++ post).length 0 = 0 := npIndex_zero _
  have he : npIndex (mid ++ post).length (-(post.length : Int)) = mid.length := by
    rw [npIndex_neg _ _ hpost (by simp only [List.length_append]; omega)]
    simp only [List.length_append]; omega
  have hmax : max 0 mid.length = mid.length := by omega
  simp only [npSetSlice, hs, he]
  rw [if_pos (by omega)]
  rw [hmax, List.take_zero, List.drop_left, List.nil_append]

theorem npSetSliceFrom_neg (pre post v : List ℝ) (hpost : 0 < post.length)
    (h : v.length = post.length) :
    npSetSliceFrom (pre ++ post) (-(post.length : Int)) v = some (pre ++ v) := by
  unfold npSetSliceFrom
  have hs : npIndex (pre ++ post).length (-(post.length : Int)) = pre.length := by
    rw [npIndex_neg _ _ hpost (by simp only [List.length_append]; omega)]
    simp only [List.length_append]; omega
  have he : npIndex (pre ++ post).length ((pre ++ post).length : Int)
      = (pre ++ post).length := by
    rw [npIndex_coe]; omega
  have hmax : max pre.length (pre ++ post).length = (pre ++ post).length := by
    simp only [List.length_append]; omega
  simp only [npSetSlice, hs, he]
  rw [if_pos (by simp only [List.length_append]; omega)]
  rw [hmax, List.take_left, List.drop_length, List.append_nil]

theorem npSliceFrom_neg (pre post : List ℝ) (h : 0 < post.length) :
    npSliceFrom (pre ++ post) (-(post.length : Int)) = post := by
  unfold npSliceFrom
  rw [npIndex_neg _ _ h (by simp only [List.length_append]; omega)]
  have h1 : (pre ++ post).length - post.length = pre.length := by
    simp only [List.length_append]; omega
  rw [h1, List.drop_left]

theorem npSetSlice_zero_negstop_repl (N_total N_HR : Nat) (v : List ℝ)
    (hpos : 0 < N_HR) (h : v.length = N_total) :
    npSetSlice (List.replicate (N_total + N_HR) 0) 0 (-(N_HR : Int)) v
      = some (v ++ List.replicate N_HR 0) := by
  rw [List.replicate_add]
  have := npSetSlice_zero_negstop (List.replicate N_total (0 : ℝ))
    (List.replicate N_HR 0) v (by simpa using hpos) (by simpa using h)
  simpa using this

theorem npSetSliceFrom_neg_repl (pre : List ℝ) (N_HR : Nat) (v : List ℝ)
    (hpos : 0 < N_HR) (h : v.length = N_HR) :
    npSetSliceFrom (pre ++ List.replicate N_HR 0) (-(N_HR : Int)) v = some (pre ++ v) := by
  have := npSetSliceFrom_neg pre (List.replicate N_HR (0 : ℝ)) v
    (by simpa using hpos) (by simpa using h)
  simpa using this

theorem npSliceFrom_neg_len (y : List ℝ) (n : Nat) (h0 : 0 < n) (h : n ≤ y.length) :
    npSliceFrom y (-(n : Int)) = y.drop (y.length - n) := by
  unfold npSliceFrom
  rw [npIndex_neg _ _ h0 h]

theorem npAdd_eq (a b : List ℝ) (h : a.length = b.length) :
    npAdd a b = some (List.zipWith (fun x y => x + y) a b) := by
  unfold npAdd; rw [if_pos h]

theorem npSetSlice_fill (pre : List ℝ) (Nsv rest : Nat) (v : List ℝ)
    (hv : v.length = Nsv) :
    npSetSlice (pre ++ List.replicate Nsv 0 ++ List.replicate rest 0)
      (pre.length : Int) ((pre.length + Nsv : Nat) : Int) v
      = some (pre ++ v ++ List.replicate rest 0) := by
  have h := npSetSlice_append pre (List.replicate Nsv (0 : ℝ))
    (List.replicate rest 0) v (by simpa using hv)
  simpa using h

theorem sum_map_congr_const {α : Type} (l : List α) (f : α → Nat) (c : Nat)
    (h : ∀ x ∈ l, f x = c) : (l.map f).sum = l.length * c := by
  induction l with
  | nil => simp
  | cons a t ih =>
    simp only [List.map_cons, List.sum_cons, List.length_cons]
    rw [h a (List.mem_cons_self _ _), ih (fun x hx => h x (List.mem_cons_of_mem _ hx))]
    ring

theorem Mk_length (sl : Slice) (hd : sl.data.length = sl.voxels)
    (hm : sl.mask.length = sl.voxels) : (Mk sl).length = sl.voxels := by
  simp [Mk, hd, hm]

theorem WF_facts (stk : Stack) (hwf : stk.WF) :
    (∀ sl ∈ stk.slices, (Mk sl).length = stk.headSliceVoxels)
    ∧ stk.slices.length * stk.headSliceVoxels = stk.voxels
    ∧ (stk.slices.map Slice.voxels).sum = stk.voxels := by
  obtain ⟨hlen, hall⟩ := hwf
  have hvox : ∀ sl ∈ stk.slices, sl.voxels = stk.size.1 * stk.size.2.1 * 1 := by
    intro sl hsl
    obtain ⟨hsize, _, _⟩ := hall sl hsl
    rw [Slice.voxels, hsize]
  have hmk : ∀ sl ∈ stk.slices, (Mk sl).length = stk.size.1 * stk.size.2.1 * 1 := by
    intro sl hsl
    obtain ⟨hsize, hd, hm⟩ := hall sl hsl
    rw [Mk_length sl hd hm]; exact hvox sl hsl
  have hsum : (stk.slices.map Slice.voxels).sum
      = stk.slices.length * (stk.size.1 * stk.size.2.1 * 1) :=
    sum_map_congr_const _ _ _ hvox
  cases hsl : stk.slices with
  | nil =>
    have hnz : stk.size.2.2 = 0 := by rw [← hlen, hsl]; rfl
    refine ⟨by simp [hsl], ?_, ?_⟩
    · simp [Stack.voxels, hnz]
    · simp [Stack.voxels, hnz]
  | cons s0 t =>
    rw [hsl] at hlen hsum
    have hhead : stk.headSliceVoxels = s0.voxels := by
      unfold Stack.headSliceVoxels; rw [hsl]
    have h0 : s0.voxels = stk.size.1 * stk.size.2.1 * 1 :=
      hvox s0 (by rw [hsl]; exact List.mem_cons_self s0 t)
    refine ⟨?_, ?_, ?_⟩
    · intro sl hs
      rw [hmk sl (by rw [hsl]; exact hs), hhead, h0]
    · rw [hhead, h0, hlen, Stack.voxels]; ring
    · rw [hsum, hlen, Stack.voxels]; ring

theorem fillSlices_spec (Nsv : Nat) (slices : List Slice) (pre : List ℝ) (m : Nat)
    (hlen : ∀ sl ∈ slices, (Mk sl).length = Nsv)
    (hm : slices.length * Nsv ≤ m) :
    fillSlices Nsv slices (pre ++ List.replicate m 0) pre.length
      = some (pre ++ (slices.map Mk).flatten
            ++ List.replicate (m - slices.length * Nsv) 0,
          pre.length + slices.length * Nsv) := by
  induction slices generalizing pre m with
  | nil => simp [fillSlices]
  | cons sl rest ih =>
    have hNsv : (Mk sl).length = Nsv := hlen sl (List.mem_cons_self _ _)
    simp only [List.length_cons] at hm
    rw [add_one_mul] at hm
    have hrepl : List.replicate m (0 : ℝ)
        = List.replicate Nsv 0 ++ List.replicate (m - Nsv) 0 := by
      rw [← List.replicate_add]; congr 1; omega
    simp only [fillSlices]
    rw [hrepl, ← List.append_assoc,
        npSetSlice_fill pre Nsv (m - Nsv) (Mk sl) hNsv, Option.some_bind]
    have hplen : pre.length + Nsv = (pre ++ Mk sl).length := by
      simp [hNsv]
    rw [hplen, ih (pre ++ Mk sl) (m - Nsv)
        (fun x hx => hlen x (List.mem_cons_of_mem _ hx)) (by omega)]
    have e1 : m - Nsv - rest.length * Nsv = m - (rest.length + 1) * Nsv := by
      rw [add_one_mul]; omega
    simp only [Option.some.injEq, Prod.mk.injEq]
    constructor
    · rw [e1]
      simp [List.append_assoc]
    · simp only [List.length_append, hNsv, add_one_mul, List.length_cons]
      omega

theorem fillStacks_spec (stacks0 : List Stack) (pre : List ℝ) (m : Nat)
    (hne : ∀ stk ∈ stacks0, stk.slices ≠ [])
    (hlen : ∀ stk ∈ stacks0, ∀ sl ∈ stk.slices, (Mk sl).length = stk.headSliceVoxels)
    (hm : (stacks0.map (fun stk => stk.slices.length * stk.headSliceVoxels)).sum ≤ m) :
    fillStacks stacks0 (pre ++ List.replicate m 0) pre.length
      = some (pre ++ (stacks0.map (fun stk => (stk.slices.map Mk).flatten)).flatten
            ++ List.replicate
                (m - (stacks0.map (fun stk => stk.slices.length * stk.headSliceVoxels)).sum) 0,
          pre.length
            + (stacks0.map (fun stk => stk.slices.length * stk.headSliceVoxels)).sum) := by
  induction stacks0 generalizing pre m with
  | nil => simp [fillStacks]
  | cons stk rest ih =>
    have hne0 : stk.slices ≠ [] := hne stk (List.mem_cons_self _ _)
    have hmk : ∀ sl ∈ stk.slices, (Mk sl).length = stk.headSliceVoxels :=
      hlen stk (List.mem_cons_self _ _)
    simp only [List.map_cons, List.sum_cons] at hm ⊢
    simp only [fillStacks]
    rw [if_neg (by simp [List.isEmpty_iff, hne0])]
    rw [fillSlices_spec stk.headSliceVoxels stk.slices pre m hmk (by omega),
        Option.some_bind]
    have hF : ((stk.slices.map Mk).flatten).length
        = stk.slices.length * stk.headSliceVoxels := by
      rw [List.length_flatten, List.map_map]
      exact sum_map_congr_const _ _ _ hmk
    have hoff : pre.length + stk.slices.length * stk.headSliceVoxels
        = (pre ++ (stk.slices.map Mk).flatten).length := by
      simp [hF]
    rw [hoff, ih (pre ++ (stk.slices.map Mk).flatten)
        (m - stk.slices.length * stk.headSliceVoxels)
        (fun x hx => hne x (List.mem_cons_of_mem _ hx))
        (fun x hx => hlen x (List.mem_cons_of_mem _ hx)) (by omega)]
    have e1 : m - stk.slices.length * stk.headSliceVoxels
          - (rest.map (fun s2 => s2.slices.length * s2.headSliceVoxels)).sum
        = m - (stk.slices.length * stk.headSliceVoxels
            + (rest.map (fun s2 => s2.slices.length * s2.headSliceVoxels)).sum) := by
      omega
    simp only [Option.some.injEq, Prod.mk.injEq]
    constructor
    · rw [e1]
      simp [List.append_assoc]
    · simp only [List.length_append, hF]
      omega

theorem get_b_spec (stacks0 : List Stack) (tail : Nat)
    (hne : ∀ stk ∈ stacks0, stk.slices ≠ [])
    (hlen : ∀ stk ∈ stacks0, ∀ sl ∈ stk.slices, (Mk sl).length = stk.headSliceVoxels) :
    get_b stacks0
        ((stacks0.map (fun stk => stk.slices.length * stk.headSliceVoxels)).sum + tail)
      = some ((stacks0.map (fun stk => (stk.slices.map Mk).flatten)).flatten
          ++ List.replicate tail 0) := by
  unfold get_b
  have h := fillStacks_spec stacks0 []
    ((stacks0.map (fun stk => stk.slices.length * stk.headSliceVoxels)).sum + tail)
    hne hlen (by omega)
  simp only [List.nil_append, List.length_nil, Nat.add_sub_cancel_left, Nat.zero_add] at h
  rw [h, Option.map_some']

theorem get_b_WF (stacks0 : List Stack) (tail : Nat)
    (hwf : ∀ stk ∈ stacks0, stk.WF) (hne : ∀ stk ∈ stacks0, stk.slices ≠ []) :
    get_b stacks0 ((stacks0.map Stack.voxels).sum + tail)
      = some ((stacks0.map (fun stk => (stk.slices.map Mk).flatten)).flatten
          ++ List.replicate tail 0)
    ∧ ((stacks0.map (fun stk => (stk.slices.map Mk).flatten)).flatten).length
        = (stacks0.map Stack.voxels).sum
    ∧ (stacks0.map (fun stk => (stk.slices.map Slice.voxels).sum)).sum
        = (stacks0.map Stack.voxels).sum := by
  have hlen : ∀ stk ∈ stacks0, ∀ sl ∈ stk.slices, (Mk sl).length = stk.headSliceVoxels :=
    fun stk h => (WF_facts stk (hwf stk h)).1
  have hTeq : (stacks0.map (fun stk => stk.slices.length * stk.headSliceVoxels)).sum
      = (stacks0.map Stack.voxels).sum := by
    have : stacks0.map (fun stk => stk.slices.length * stk.headSliceVoxels)
        = stacks0.map Stack.voxels :=
      List.map_congr_left (fun stk h => (WF_facts stk (hwf stk h)).2.1)
    rw [this]
  have hFlen : ((stacks0.map (fun stk => (stk.slices.map Mk).flatten)).flatten).length
      = (stacks0.map (fun stk => stk.slices.length * stk.headSliceVoxels)).sum := by
    rw [List.length_flatten, List.map_map]
    congr 1
    refine List.map_congr_left (fun stk h => ?_)
    show ((stk.slices.map Mk).flatten).length = _
    rw [List.length_flatten, List.map_map]
    exact sum_map_congr_const _ _ _ (fun sl hs => (WF_facts stk (hwf stk h)).1 sl hs)
  refine ⟨?_, ?_, ?_⟩
  · rw [← hTeq]
    exact get_b_spec stacks0 tail hne hlen
  · rw [hFlen, hTeq]
  · have : stacks0.map (fun stk => (stk.slices.map Slice.voxels).sum)
        = stacks0.map Stack.voxels :=
      List.map_congr_left (fun stk h => (WF_facts stk (hwf stk h)).2.2)
    rw [this]

/-- C1: for every HR-volume vector x of length N_HR, the assembled
augmented forward operator returns the stacked vector
[M_1 A_1 x; …; M_K A_K x; sqrt(alpha) G x]: under TK0 the output has
length N_total + N_HR and its trailing N_HR entries are sqrt(alpha)
times x; under TK1 the output has length N_total + 3 N_HR and its
trailing 3 N_HR entries are sqrt(alpha) times D x; in both cases the
leading N_total entries are the masked per-slice forward projections
MA x. -/
theorem claim_C1 (Aks : List (List ℝ → List ℝ)) (masks : List (List ℝ))
    (Df : List ℝ → List ℝ) (x : List ℝ) (alpha : ℝ) (N_total N_HR : Nat)
    (hMA : (MA Aks masks x).length = N_total) (hx : x.length = N_HR)
    (hD : (Df x).length = 3 * N_HR) (hpos : 0 < N_HR) :
    A_TK0 (MA Aks masks) N_HR x (N_total + N_HR) alpha
        = some (MA Aks masks x ++ x.map (fun t => Real.sqrt alpha * t))
    ∧ (MA Aks masks x ++ x.map (fun t => Real.sqrt alpha * t)).length = N_total + N_HR
    ∧ A_TK1 (MA Aks masks) Df N_HR x (N_total + 3 * N_HR) alpha
        = some (MA Aks masks x ++ (Df x).map (fun t => Real.sqrt alpha * t))
    ∧ (MA Aks masks x ++ (Df x).map (fun t => Real.sqrt alpha * t)).length
        = N_total + 3 * N_HR := by
  refine ⟨?_, ?_, ?_, ?_⟩
  · simp only [A_TK0]
    rw [npSetSlice_zero_negstop_repl N_total N_HR (MA Aks masks x) hpos hMA,
        Option.some_bind]
    exact npSetSliceFrom_neg_repl (MA Aks masks x) N_HR _ hpos (by simpa using hx)
  · simp only [List.length_append, List.length_map, hMA, hx]
  · simp only [A_TK1]
    rw [npSetSlice_zero_negstop_repl N_total (3 * N_HR) (MA Aks masks x)
        (by omega) hMA, Option.some_bind]
    exact npSetSliceFrom_neg_repl (MA Aks masks x) (3 * N_HR) _ (by omega)
      (by simpa using hD)
  · simp only [List.length_append, List.length_map, hMA, hD]

/-- Witness for C1 at a concrete one-voxel HR vector and a single
two-voxel slice. -/
theorem claim_C1_witness :
    A_TK0 (MA Aks1 masks1) 1 x1 3 1
        = some (MA Aks1 masks1 x1 ++ x1.map (fun t => Real.sqrt 1 * t))
    ∧ (MA Aks1 masks1 x1 ++ x1.map (fun t => Real.sqrt 1 * t)).length = 3
    ∧ A_TK1 (MA Aks1 masks1) D1 1 x1 5 1
        = some (MA Aks1 masks1 x1 ++ (D1 x1).map (fun t => Real.sqrt 1 * t))
    ∧ (MA Aks1 masks1 x1 ++ (D1 x1).map (fun t => Real.sqrt 1 * t)).length = 5 :=
  claim_C1 Aks1 masks1 D1 x1 1 2 1 rfl rfl rfl (by decide)

/-- C2: for every stacked vector y, the assembled adjoint operator
returns the per-slice adjoint accumulation A_adj_M y, the sum over all
slices of A_k* M_k applied to the per-slice blocks of y, plus sqrt(alpha)
times the adjoint of G applied to the trailing regularization block:
under TK0 sqrt(alpha) times the last N_HR entries of y, under TK1
sqrt(alpha) times D* applied to the trailing 3 N_HR block. -/
theorem claim_C2 (Aadjs : List (List ℝ → List ℝ)) (masks : List (List ℝ))
    (sizes : List Nat) (Dstar : List ℝ → List ℝ) (N_total N_HR : Nat)
    (y0 y1 : List ℝ) (alpha : ℝ) (hpos : 0 < N_HR)
    (h0len : (A_adj_M Aadjs masks sizes N_HR y0).length = N_HR)
    (hy0 : y0.length = N_total + N_HR)
    (h1len : (A_adj_M Aadjs masks sizes N_HR y1).length = N_HR)
    (hy1 : y1.length = N_total + 3 * N_HR)
    (hDlen : (Dstar (y1.drop N_total)).length = N_HR) :
    A_adj_TK0 (A_adj_M Aadjs masks sizes N_HR) N_HR y0 alpha
      = some (List.zipWith (fun a b => a + b) (A_adj_M Aadjs masks sizes N_HR y0)
          ((y0.drop N_total).map (fun t => t * Real.sqrt alpha)))
    ∧ A_adj_TK1 (A_adj_M Aadjs masks sizes N_HR) (D_adj Dstar N_HR) y1 alpha
      = some (List.zipWith (fun a b => a + b) (A_adj_M Aadjs masks sizes N_HR y1)
          ((Dstar (y1.drop N_total)).map (fun t => t * Real.sqrt alpha))) := by
  constructor
  · simp only [A_adj_TK0]
    rw [npSliceFrom_neg_len y0 N_HR hpos (by omega)]
    have he : y0.length - N_HR = N_total := by omega
    rw [he]
    exact npAdd_eq _ _
      (by simp only [List.length_map, List.length_drop, h0len, hy0]; omega)
  · simp only [A_adj_TK1, D_adj]
    rw [npSliceFrom_neg_len y1 (3 * N_HR) (by omega) (by omega)]
    have he : y1.length - 3 * N_HR = N_total := by omega
    rw [he]
    exact npAdd_eq _ _
      (by simp only [List.length_map, h1len, hDlen])

/-- Witness for C2 at a concrete stacked vector with one slice voxel and
a one-voxel HR grid. -/
theorem claim_C2_witness :
    A_adj_TK0 (A_adj_M Aadjs1 masksA1 sizes1 1) 1 y0w 1
      = some (List.zipWith (fun a b => a + b) (A_adj_M Aadjs1 masksA1 sizes1 1 y0w)
          ((y0w.drop 1).map (fun t => t * Real.sqrt 1)))
    ∧ A_adj_TK1 (A_adj_M Aadjs1 masksA1 sizes1 1) (D_adj Dstar1 1) y1w 1
      = some (List.zipWith (fun a b => a + b) (A_adj_M Aadjs1 masksA1 sizes1 1 y1w)
          ((Dstar1 (y1w.drop 1)).map (fun t => t * Real.sqrt 1))) :=
  claim_C2 Aadjs1 masksA1 sizes1 Dstar1 1 1 y0w y1w 1 (by decide)
    rfl rfl rfl rfl rfl

/-- C3: for every stack set, the right-hand side b built before the solve
has length N_total + size(G); its leading block holds, in stack order and
then slice order, each slice's observed data with that slice's mask
applied, and its trailing regularization block, of N_HR entries for TK0
and 3 N_HR entries for TK1, consists entirely of zeros. -/
theorem claim_C3 (stacks0 : List Stack) (hr : HRVolume) (alpha : ℝ) (it : Int)
    (rt : String) (hrt : rt ∈ (["TK0", "TK1"] : List String))
    (hwf : ∀ stk ∈ stacks0, stk.WF) (hne : ∀ stk ∈ stacks0, stk.slices ≠ []) :
    get_b stacks0 (TikhonovSolver.mkSolver stacks0 hr alpha it rt).N_voxels_augmented
      = some ((stacks0.map (fun stk => (stk.slices.map Mk).flatten)).flatten
          ++ List.replicate (if rt = "TK0"
              then hr.size.1 * hr.size.2.1 * hr.size.2.2
              else 3 * (hr.size.1 * hr.size.2.1 * hr.size.2.2)) 0)
    ∧ ((stacks0.map (fun stk => (stk.slices.map Mk).flatten)).flatten).length
        = (stacks0.map Stack.voxels).sum := by
  obtain ⟨hb, hFlen, _⟩ := get_b_WF stacks0 (if rt = "TK0"
      then hr.size.1 * hr.size.2.1 * hr.size.2.2
      else 3 * (hr.size.1 * hr.size.2.1 * hr.size.2.2)) hwf hne
  refine ⟨?_, hFlen⟩
  have haug : (TikhonovSolver.mkSolver stacks0 hr alpha it rt).N_voxels_augmented
      = (stacks0.map Stack.voxels).sum + (if rt = "TK0"
          then hr.size.1 * hr.size.2.1 * hr.size.2.2
          else 3 * (hr.size.1 * hr.size.2.1 * hr.size.2.2)) := by
    simp only [List.mem_cons, List.mem_singleton, List.not_mem_nil, or_false] at hrt
    rcases hrt with h | h <;> subst h <;>
      simp [TikhonovSolver.N_voxels_augmented, TikhonovSolver.mkSolver]
  rw [haug]
  exact hb

/-- Witness for C3 at one stack holding one one-voxel slice, a one-voxel
HR grid and regularization type TK0. -/
theorem claim_C3_witness :
    get_b [stack1] (TikhonovSolver.mkSolver [stack1] hr0 1 10 ("TK0")).N_voxels_augmented
      = some ((([stack1] : List Stack).map (fun stk => (stk.slices.map Mk).flatten)).flatten
          ++ List.replicate (if ("TK0" : String) = "TK0"
              then hr0.size.1 * hr0.size.2.1 * hr0.size.2.2
              else 3 * (hr0.size.1 * hr0.size.2.1 * hr0.size.2.2)) 0)
    ∧ ((([stack1] : List Stack).map (fun stk => (stk.slices.map Mk).flatten)).flatten).length
        = (([stack1] : List Stack).map Stack.voxels).sum :=
  claim_C3 [stack1] hr0 1 10 ("TK0") (by decide)
    (by
      intro stk h
      simp only [List.mem_singleton] at h
      subst h
      refine ⟨rfl, ?_⟩
      intro sl hs
      simp only [stack1, List.mem_singleton] at hs
      subst hs
      exact ⟨rfl, rfl, rfl⟩)
    (by
      intro stk h
      simp only [List.mem_singleton] at h
      subst h
      simp [stack1])

/-- C4: for every well-formed stack set, the total slice-voxel count
computed at construction, the sum over stacks of the product of each sitk
size triple, equals the sum over all slices of each slice's voxel count;
it is exactly the number of leading entries of the augmented vector
filled with per-slice data when b is assembled; and the same row count
sizes the data-fit block of the augmented operator for both TK0 and
TK1. -/
theorem claim_C4 (stacks0 : List Stack) (hr : HRVolume) (alpha : ℝ) (it : Int)
    (tail : Nat)
    (hwf : ∀ stk ∈ stacks0, stk.WF) (hne : ∀ stk ∈ stacks0, stk.slices ≠ []) :
    (TikhonovSolver.mkSolver stacks0 hr alpha it ("TK0"))._N_total_slice_voxels
        = (stacks0.map (fun stk => (stk.slices.map Slice.voxels).sum)).sum
    ∧ get_b stacks0 ((stacks0.map Stack.voxels).sum + tail)
        = some ((stacks0.map (fun stk => (stk.slices.map Mk).flatten)).flatten
            ++ List.replicate tail 0)
    ∧ ((stacks0.map (fun stk => (stk.slices.map Mk).flatten)).flatten).length
        = (stacks0.map Stack.voxels).sum
    ∧ (TikhonovSolver.mkSolver stacks0 hr alpha it ("TK0")).N_voxels_augmented
        = (stacks0.map Stack.voxels).sum + hr.size.1 * hr.size.2.1 * hr.size.2.2
    ∧ (TikhonovSolver.mkSolver stacks0 hr alpha it ("TK1")).N_voxels_augmented
        = (stacks0.map Stack.voxels).sum + 3 * (hr.size.1 * hr.size.2.1 * hr.size.2.2) := by
  obtain ⟨hb, hFlen, hsl⟩ := get_b_WF stacks0 tail hwf hne
  refine ⟨?_, hb, hFlen, ?_, ?_⟩
  · simp only [TikhonovSolver.mkSolver]
    exact hsl.symm
  · simp [TikhonovSolver.N_voxels_augmented, TikhonovSolver.mkSolver]
  · simp [TikhonovSolver.N_voxels_augmented, TikhonovSolver.mkSolver]

/-- Witness for C4 at one stack holding one one-voxel slice and a
one-entry regularization tail. -/
theorem claim_C4_witness :
    (TikhonovSolver.mkSolver [stack1] hr0 1 10 ("TK0"))._N_total_slice_voxels
        = (([stack1] : List Stack).map (fun stk => (stk.slices.map Slice.voxels).sum)).sum
    ∧ get_b [stack1] ((([stack1] : List Stack).map Stack.voxels).sum + 1)
        = some ((([stack1] : List Stack).map (fun stk => (stk.slices.map Mk).flatten)).flatten
            ++ List.replicate 1 0)
    ∧ ((([stack1] : List Stack).map (fun stk => (stk.slices.map Mk).flatten)).flatten).length
        = (([stack1] : List Stack).map Stack.voxels).sum
    ∧ (TikhonovSolver.mkSolver [stack1] hr0 1 10 ("TK0")).N_voxels_augmented
        = (([stack1] : List Stack).map Stack.voxels).sum
            + hr0.size.1 * hr0.size.2.1 * hr0.size.2.2
    ∧ (TikhonovSolver.mkSolver [stack1] hr0 1 10 ("TK1")).N_voxels_augmented
        = (([stack1] : List Stack).map Stack.voxels).sum
            + 3 * (hr0.size.1 * hr0.size.2.1 * hr0.size.2.2) :=
  claim_C4 [stack1] hr0 1 10 1
    (by
      intro stk h
      simp only [List.mem_singleton] at h
      subst h
      refine ⟨rfl, ?_⟩
      intro sl hs
      simp only [stack1, List.mem_singleton] at hs
      subst hs
      exact ⟨rfl, rfl, rfl⟩)
    (by
      intro stk h
      simp only [List.mem_singleton] at h
      subst h
      simp [stack1])

theorem get_b_nil (N_voxels : Nat) :
    get_b [] N_voxels = some (List.replicate N_voxels 0) := by
  simp [get_b, fillStacks]

theorem run_reconstruction_eq (s : TikhonovSolver) (lsqr : LsqrFun)
    (MAf Aadjf Df Dadjf : List ℝ → List ℝ) (b : List ℝ)
    (hb : get_b s._stacks s.N_voxels_augmented = some b) :
    s.run_reconstruction lsqr MAf Aadjf Df Dadjf
      = some { s with
          _HR_volume :=
            get_itk_image_from_array_vec
              (lsqr (A_forward MAf Df s._reg_type s._N_voxels_HR_volume
                      s.N_voxels_augmented s._alpha)
                    (A_backward Aadjf Dadjf s._reg_type s._N_voxels_HR_volume s._alpha)
                    b s._iter_max).1
              s._HR_volume } := by
  simp only [TikhonovSolver.run_reconstruction]
  rw [hb, Option.map_some']

/-- C5 (amended): set_regularization_type rejects a type outside TK0 and
TK1 with a ValueError, but no validation happens at solve time:
run_reconstruction treats any stored regularization type other than TK0
as TK1 when sizing the system, assembles closures that only fail when
first evaluated inside the solver, and invokes the least-squares routine
and stores its solution even when alpha is negative, iter_max is
nonpositive and zero stacks are supplied. -/
theorem claim_C5 (rt : String) (s : TikhonovSolver) (lsqr : LsqrFun)
    (MAf Aadjf Df Dadjf : List ℝ → List ℝ)
    (hrt : rt ∉ (["TK0", "TK1"] : List String))
    (hs : s._reg_type = rt) (halpha : s._alpha < 0) (hiter : s._iter_max ≤ 0)
    (hstacks : s._stacks = []) :
    TikhonovSolver.set_regularization_type s rt = Except.error regTypeErrorMsg
    ∧ s.run_reconstruction lsqr MAf Aadjf Df Dadjf
        = some { s with
            _HR_volume :=
              get_itk_image_from_array_vec
                (lsqr noneOp noneOp
                  (List.replicate
                    (s._N_total_slice_voxels + 3 * s._N_voxels_HR_volume) 0)
                  s._iter_max).1
                s._HR_volume } := by
  have hne0 : rt ≠ "TK0" := by
    intro h; exact hrt (by simp [h])
  have hne1 : rt ≠ "TK1" := by
    intro h; exact hrt (by simp [h])
  constructor
  · unfold TikhonovSolver.set_regularization_type
    rw [if_neg hrt]
  · have haug : s.N_voxels_augmented
        = s._N_total_slice_voxels + 3 * s._N_voxels_HR_volume := by
      unfold TikhonovSolver.N_voxels_augmented
      rw [hs, if_neg (by simp [hne0])]
    have hfw : A_forward MAf Df s._reg_type s._N_voxels_HR_volume
        s.N_voxels_augmented s._alpha = noneOp := by
      funext x
      unfold A_forward noneOp
      rw [hs, if_neg hne0, if_neg hne1]
    have hbw : A_backward Aadjf Dadjf s._reg_type s._N_voxels_HR_volume s._alpha
        = noneOp := by
      funext y
      unfold A_backward noneOp
      rw [hs, if_neg hne0, if_neg hne1]
    have hb : get_b s._stacks s.N_voxels_augmented
        = some (List.replicate (s._N_total_slice_voxels + 3 * s._N_voxels_HR_volume) 0) := by
      rw [hstacks, get_b_nil, haug]
    rw [run_reconstruction_eq s lsqr MAf Aadjf Df Dadjf _ hb, hfw, hbw]

/-- Witness for C5: the all-bad configuration s0. -/
theorem claim_C5_witness :
    TikhonovSolver.set_regularization_type s0 ("XX") = Except.error regTypeErrorMsg
    ∧ s0.run_reconstruction lsqr0 idOp idOp idOp idOp
        = some { s0 with
            _HR_volume :=
              get_itk_image_from_array_vec
                (lsqr0 noneOp noneOp
                  (List.replicate
                    (s0._N_total_slice_voxels + 3 * s0._N_voxels_HR_volume) 0)
                  s0._iter_max).1
                s0._HR_volume } :=
  claim_C5 ("XX") s0 lsqr0 idOp idOp idOp idOp (by decide) rfl
    (by norm_num [s0, TikhonovSolver.mkSolver]) (by decide) rfl

/-- Counterexample to C5 as stated: a configuration with an unknown
regularization type, alpha below zero, a nonpositive iteration limit and
zero stacks on which run_reconstruction does not report any error but
invokes the least-squares routine and stores its solution vector in the
HR volume. -/
theorem claim_C5_cex :
    s0._reg_type ∉ (["TK0", "TK1"] : List String)
    ∧ s0._alpha < 0 ∧ s0._iter_max ≤ 0 ∧ s0._stacks = []
    ∧ s0.run_reconstruction lsqr0 idOp idOp idOp idOp
        = some { s0 with _HR_volume := { s0._HR_volume with data := [42] } } := by
  refine ⟨by decide, by norm_num [s0, TikhonovSolver.mkSolver], by decide, rfl, ?_⟩
  have haug : s0.N_voxels_augmented = 3 := by decide
  have hb : get_b s0._stacks s0.N_voxels_augmented = some (List.replicate 3 0) := by
    rw [show s0._stacks = ([] : List Stack) from rfl, get_b_nil, haug]
  rw [run_reconstruction_eq s0 lsqr0 idOp idOp idOp idOp (List.replicate 3 0) hb]
  rfl

theorem lsqr_iterate_le (step : List ℝ → List ℝ) (conv : List ℝ → Bool)
    (n : Nat) (x : List ℝ) : (lsqr_iterate step conv n x).2 ≤ n := by
  induction n generalizing x with
  | zero => simp [lsqr_iterate]
  | succ n ih =>
    simp only [lsqr_iterate]
    split
    · simp
    · simpa using Nat.succ_le_succ (ih (step x))

/-- C6: for every iter_max above zero, the modelled iterative
least-squares solve invoked by run_reconstruction performs at most
iter_max iterations, and stopping at the iteration limit without
converging is not an error: the final iterate is returned and written
into the HR-volume result. -/
theorem claim_C6 (step : List ℝ → List ℝ) (conv : List ℝ → Bool)
    (rnorm : List ℝ → ℝ) (x0 : List ℝ) (s : TikhonovSolver)
    (MAf Aadjf Df Dadjf : List ℝ → List ℝ) (b : List ℝ)
    (hpos : 0 < s._iter_max)
    (hb : get_b s._stacks s.N_voxels_augmented = some b) :
    (lsqr_iterate step conv s._iter_max.toNat x0).2 ≤ s._iter_max.toNat
    ∧ s.run_reconstruction (lsqr_model step conv rnorm x0) MAf Aadjf Df Dadjf
        = some { s with
            _HR_volume :=
              get_itk_image_from_array_vec
                (lsqr_iterate step conv s._iter_max.toNat x0).1
                s._HR_volume } := by
  refine ⟨lsqr_iterate_le step conv _ x0, ?_⟩
  rw [run_reconstruction_eq s (lsqr_model step conv rnorm x0) MAf Aadjf Df Dadjf b hb]
  rfl

/-- Witness for C6: iteration limit 2, never-converging test, identity
step. -/
theorem claim_C6_witness :
    (lsqr_iterate idOp convFalse sC6._iter_max.toNat x7).2 ≤ sC6._iter_max.toNat
    ∧ sC6.run_reconstruction (lsqr_model idOp convFalse rnorm0 x7) idOp idOp idOp idOp
        = some { sC6 with
            _HR_volume :=
              get_itk_image_from_array_vec
                (lsqr_iterate idOp convFalse sC6._iter_max.toNat x7).1
                sC6._HR_volume } :=
  claim_C6 idOp convFalse rnorm0 x7 sC6 idOp idOp idOp idOp (List.replicate 1 0)
    (by decide)
    (by rw [show sC6._stacks = ([] : List Stack) from rfl, get_b_nil,
          show sC6.N_voxels_augmented = 1 from by decide])

/-- C7 (amended): after a run the solver exposes accessors for the
configured regularization type, alpha and maximum iteration count, all
unchanged by the run; the iteration count actually used and the final
residual norm reported by the solve are discarded, so the outcome of a
run depends only on the solution component of the least-squares routine
and no accessor can return those diagnostics. -/
theorem claim_C7 (lsqr1 lsqr2 : LsqrFun) (MAf Aadjf Df Dadjf : List ℝ → List ℝ)
    (s s2 : TikhonovSolver) (b : List ℝ)
    (hb : get_b s._stacks s.N_voxels_augmented = some b)
    (hsol : ∀ fA fB c l, (lsqr1 fA fB c l).1 = (lsqr2 fA fB c l).1)
    (hrun : s.run_reconstruction lsqr1 MAf Aadjf Df Dadjf = some s2) :
    TikhonovSolver.get_regularization_type s2 = s._reg_type
    ∧ TikhonovSolver.get_alpha s2 = s._alpha
    ∧ TikhonovSolver.get_iter_max s2 = s._iter_max
    ∧ s.run_reconstruction lsqr2 MAf Aadjf Df Dadjf = some s2 := by
  rw [run_reconstruction_eq s lsqr1 MAf Aadjf Df Dadjf b hb,
    Option.some.injEq] at hrun
  subst hrun
  refine ⟨rfl, rfl, rfl, ?_⟩
  rw [run_reconstruction_eq s lsqr2 MAf Aadjf Df Dadjf b hb, ← hsol]

/-- Witness for C7: a run with a routine reporting 7 used iterations. -/
theorem claim_C7_witness :
    TikhonovSolver.get_regularization_type sC7p = sC7._reg_type
    ∧ TikhonovSolver.get_alpha sC7p = sC7._alpha
    ∧ TikhonovSolver.get_iter_max sC7p = sC7._iter_max
    ∧ sC7.run_reconstruction lsqrC7 idOp idOp idOp idOp = some sC7p :=
  claim_C7 lsqrC7 lsqrC7 idOp idOp idOp idOp sC7 sC7p (List.replicate 1 0)
    (by rw [show sC7._stacks = ([] : List Stack) from rfl, get_b_nil,
          show sC7.N_voxels_augmented = 1 from by decide])
    (fun _ _ _ _ => rfl) rfl

/-- Counterexample to C7 as stated: a run whose solve used 7 iterations
while the only iteration accessor, get_iter_max, still returns the
configured maximum 10; the used count and the residual norm are
discarded. -/
theorem claim_C7_cex :
    sC7.run_reconstruction lsqrC7 idOp idOp idOp idOp = some sC7p
    ∧ TikhonovSolver.get_iter_max sC7p = 10
    ∧ lsqrC7 noneOp noneOp [] 0 = ([3], 7, 0)
    ∧ (10 : Int) ≠ (7 : Int) := by
  refine ⟨?_, rfl, rfl, by decide⟩
  have hb : get_b sC7._stacks sC7.N_voxels_augmented = some (List.replicate 1 0) := by
    rw [show sC7._stacks = ([] : List Stack) from rfl, get_b_nil,
      show sC7.N_voxels_augmented = 1 from by decide]
  rw [run_reconstruction_eq sC7 lsqrC7 idOp idOp idOp idOp (List.replicate 1 0) hb]
  rfl

/-- C8: run_reconstruction is pure with respect to the stacks and every
stored configuration field; only the HR volume changes, and it is
overwritten with the solution vector of the solve reshaped onto the voxel
grid geometry, size and spacing, of the input estimate. -/
theorem claim_C8 (lsqr : LsqrFun) (MAf Aadjf Df Dadjf : List ℝ → List ℝ)
    (s s2 : TikhonovSolver) (b : List ℝ)
    (hb : get_b s._stacks s.N_voxels_augmented = some b)
    (hrun : s.run_reconstruction lsqr MAf Aadjf Df Dadjf = some s2) :
    s2._stacks = s._stacks ∧ s2._alpha = s._alpha ∧ s2._iter_max = s._iter_max
    ∧ s2._reg_type = s._reg_type
    ∧ s2._N_total_slice_voxels = s._N_total_slice_voxels
    ∧ s2._N_voxels_HR_volume = s._N_voxels_HR_volume
    ∧ s2._HR_volume.size = s._HR_volume.size
    ∧ s2._HR_volume.spacing = s._HR_volume.spacing
    ∧ s2._HR_volume = get_itk_image_from_array_vec
        (lsqr (A_forward MAf Df s._reg_type s._N_voxels_HR_volume
                s.N_voxels_augmented s._alpha)
              (A_backward Aadjf Dadjf s._reg_type s._N_voxels_HR_volume s._alpha)
              b s._iter_max).1 s._HR_volume := by
  rw [run_reconstruction_eq s lsqr MAf Aadjf Df Dadjf b hb,
    Option.some.injEq] at hrun
  subst hrun
  exact ⟨rfl, rfl, rfl, rfl, rfl, rfl, rfl, rfl, rfl⟩

/-- Witness for C8: a concrete run on the TK0 configuration sC7. -/
theorem claim_C8_witness :
    sC7p._stacks = sC7._stacks ∧ sC7p._alpha = sC7._alpha
    ∧ sC7p._iter_max = sC7._iter_max
    ∧ sC7p._reg_type = sC7._reg_type
    ∧ sC7p._N_total_slice_voxels = sC7._N_total_slice_voxels
    ∧ sC7p._N_voxels_HR_volume = sC7._N_voxels_HR_volume
    ∧ sC7p._HR_volume.size = sC7._HR_volume.size
    ∧ sC7p._HR_volume.spacing = sC7._HR_volume.spacing
    ∧ sC7p._HR_volume = get_itk_image_from_array_vec
        (lsqrC7 (A_forward idOp idOp sC7._reg_type sC7._N_voxels_HR_volume
                  sC7.N_voxels_augmented sC7._alpha)
                (A_backward idOp idOp sC7._reg_type sC7._N_voxels_HR_volume sC7._alpha)
                (List.replicate 1 0) sC7._iter_max).1 sC7._HR_volume :=
  claim_C8 lsqrC7 idOp idOp idOp idOp sC7 sC7p (List.replicate 1 0)
    (by rw [show sC7._stacks = ([] : List Stack) from rfl, get_b_nil,
          show sC7.N_voxels_augmented = 1 from by decide])
    (by
      have hb : get_b sC7._stacks sC7.N_voxels_augmented
          = some (List.replicate 1 0) := by
        rw [show sC7._stacks = ([] : List Stack) from rfl, get_b_nil,
          show sC7.N_voxels_augmented = 1 from by decide]
      rw [run_reconstruction_eq sC7 lsqrC7 idOp idOp idOp idOp
        (List.replicate 1 0) hb]
      rfl)

/-- C9: resample_to_isotropic_grid computes the number of target slices
as ceil(shape[2] pixdim[2] / pixdim[0]) cast to an unsigned 8-bit
integer, so the allocated target volume always has fewer than 256 slices
and, whenever the true count exceeds 255, the target slice count is the
true count reduced modulo 256 rather than the true count. -/
theorem claim_C9 (shape : Nat × Nat × Nat) (pixdim0 pixdim2 : ℚ) :
    Registration.number_of_slices_target_through_plane shape.2.2 pixdim0 pixdim2
        = Registration.true_slice_count shape.2.2 pixdim0 pixdim2 % 256
    ∧ (Registration.data_target_shape shape pixdim0 pixdim2).2.2 < 256
    ∧ (255 < Registration.true_slice_count shape.2.2 pixdim0 pixdim2 →
        Registration.number_of_slices_target_through_plane shape.2.2 pixdim0 pixdim2
          ≠ Registration.true_slice_count shape.2.2 pixdim0 pixdim2) := by
  refine ⟨rfl, ?_, ?_⟩
  · exact Nat.mod_lt _ (by norm_num)
  · intro hbig
    have hlt : Registration.true_slice_count shape.2.2 pixdim0 pixdim2 % 256 < 256 :=
      Nat.mod_lt _ (by norm_num)
    simp only [Registration.number_of_slices_target_through_plane]
    omega

/-- Witness for C9 at 100 slices of thickness 3 resampled to in-plane
spacing one half: the true count is 600 and the stored count is 88. -/
theorem claim_C9_witness :
    Registration.number_of_slices_target_through_plane 100 (1 / 2) 3
        = Registration.true_slice_count 100 (1 / 2) 3 % 256
    ∧ (Registration.data_target_shape (256, 256, 100) (1 / 2) 3).2.2 < 256
    ∧ Registration.number_of_slices_target_through_plane 100 (1 / 2) 3
        ≠ Registration.true_slice_count 100 (1 / 2) 3 := by
  obtain ⟨h1, h2, h3⟩ := claim_C9 (256, 256, 100) (1 / 2) 3
  have h600 : Registration.true_slice_count 100 (1 / 2) 3 = 600 := by
    unfold Registration.true_slice_count Registration.length_through_plane
    norm_num; rfl
  exact ⟨h1, h2, h3 (by rw [h600]; omega)⟩

/-- C10: every call to RegistrationSimpleITK.get_registration_type
raises a NameError, because the method returns the unbound bare name
registration_type instead of self._registration_type; it never returns
the configured registration type, even though set_registration_type
stores each of the three accepted types. -/
theorem claim_C10 (s : RegistrationSimpleITK) :
    RegistrationSimpleITK.get_registration_type s = Except.error nameErrorMsg
    ∧ RegistrationSimpleITK.set_registration_type s ("Rigid")
        = Except.ok { s with _registration_type := "Rigid" }
    ∧ RegistrationSimpleITK.set_registration_type s ("Similarity")
        = Except.ok { s with _registration_type := "Similarity" }
    ∧ RegistrationSimpleITK.set_registration_type s ("Affine")
        = Except.ok { s with _registration_type := "Affine" } := by
  exact ⟨rfl, rfl, rfl, rfl⟩

end NiftyMIC
